import Mathlib

/-!
Shallow embedding of the document pipeline in `api/summarize.ts` of the
city-council-summary repository, together with proofs about the behaviour of
its components (locator, fetcher, text extractor, relevance selector,
summarizer client, aggregator).

Texts are modelled as Lean `String`s (`List Char` underneath); JavaScript
string primitives (`toLowerCase`, `trim`, `includes`, `startsWith`,
`split(/\n\s*\n/)`) are re-implemented below over the character list, so that
every definition is executable and kernel-evaluable.  `String.length` counts
characters rather than UTF-16 code units; the two agree on ASCII text.
-/

/-- Whitespace test used to model the JavaScript `\s` class and `trim` on the
ASCII range: space, tab, newline, carriage return, vertical tab, form feed. -/
def isJsWs (c : Char) : Bool :=
  c = ' ' || c = '\t' || c = '\n' || c = '\r' || c = Char.ofNat 11 || c = Char.ofNat 12

/-- Model of `String.prototype.trim`: drop whitespace from both ends. -/
def jsTrim (s : String) : String :=
  String.mk (((s.toList.dropWhile isJsWs).reverse.dropWhile isJsWs).reverse)

/-- Model of `String.prototype.toLowerCase` (ASCII range). -/
def strToLower (s : String) : String :=
  String.mk (s.toList.map Char.toLower)

/-- Contiguous-sublist test on character lists, used to model
`String.prototype.includes`. -/
def listInfix : List Char → List Char → Bool
  | needle, [] => needle.isEmpty
  | needle, hay@(_ :: t) => needle.isPrefixOf hay || listInfix needle t

/-- Model of `hay.includes(needle)`. -/
def strIncludes (hay needle : String) : Bool :=
  listInfix needle.toList hay.toList

/-- Model of `s.startsWith(pre)`. -/
def startsWithStr (s pre : String) : Bool :=
  pre.toList.isPrefixOf s.toList

/-- Model of `Array.prototype.join(sep)`. -/
def joinWith (sep : String) : List String → String
  | [] => ""
  | [x] => x
  | x :: xs => x ++ sep ++ joinWith sep xs

/-- Numeric value of a digit list (most significant first). -/
def digitsVal (l : List Char) : Nat :=
  l.foldl (fun acc c => acc * 10 + (c.toNat - '0'.toNat)) 0

/-- Order key of a `YYYY-MM-DD` date string.  The source compares dates with
`new Date(s).getTime()`; on well-formed `YYYY-MM-DD` strings that timestamp is
strictly monotone in the number `YYYYMMDD`, so reading the digits as one
number is an order-faithful model of the comparison key. -/
def dateKey (s : String) : Nat :=
  digitsVal (s.toList.filter Char.isDigit)

/-- Total character count of a list of paragraphs. -/
def sumLen (l : List String) : Nat :=
  (l.map String.length).sum

/-!
Paragraph splitting.  The source splits with `minutesText.split(/\n\s*\n/)`
("Split by one or more empty lines").  A separator match starts at a newline,
greedily consumes a run of whitespace, and must end at a newline inside that
run; the regex engine takes the leftmost match and, within the whitespace run,
the longest separator (the final `\n` of the match is the last newline of the
run, by greediness of `\s*`).
-/

/-- Attempt to match the separator regex `\n\s*\n` at the head of the list.
Returns the remainder of the input after the (greedy) match. -/
def sepAt : List Char → Option (List Char)
  | '\n' :: rest =>
    let run := rest.takeWhile isJsWs
    if run.contains '\n' then
      some ((run.reverse.takeWhile (fun c => c != '\n')).reverse ++ rest.dropWhile isJsWs)
    else none
  | _ => none

/-- Worker for the paragraph split.  `acc` is the current field, reversed.
Every step consumes at least one input character, so fuel equal to the input
length makes the zero-fuel branch unreachable. -/
def splitGo (fuel : Nat) (acc : List Char) (l : List Char) : List String :=
  match fuel with
  | 0 => [String.mk acc.reverse]
  | fuel + 1 =>
    match l with
    | [] => [String.mk acc.reverse]
    | c :: rest =>
      match sepAt (c :: rest) with
      | some after => String.mk acc.reverse :: splitGo fuel [] after
      | none => splitGo fuel (c :: acc) rest

/-- Model of `minutesText.split(/\n\s*\n/)` (api/summarize.ts line 118). -/
def splitParas (minutesText : String) : List String :=
  splitGo minutesText.toList.length [] minutesText.toList

/-- Keyword set of the relevance selector (api/summarize.ts lines 112-116),
verbatim from the source, including the upper-case entries. -/
def keywords : List String :=
  ["housing", "affordable housing", "homelessness", "homeless", "zoning", "rezoning",
   "development", "land use", "gentrification", "shelter", "rent", "property",
   "CDBG", "HOME", "apartment", "condominium", "multi-family", "residential"]

/-- Keyword test applied to each paragraph:
`keywords.some(keyword => lowerPara.includes(keyword))`. -/
def matchesKeywords (para : String) : Bool :=
  keywords.any (fun keyword => strIncludes (strToLower para) keyword)

/-- Total excerpt budget (api/summarize.ts line 120). -/
def MAX_EXCERPT_LENGTH : Nat := 35000

/-- Model of the selection loop (api/summarize.ts lines 123-132): walk the
paragraphs in order, keep a matching paragraph unless adding it would push the
running total over the budget, in which case the loop `break`s (dropping that
paragraph and everything after it). -/
def selectGo : List String → Nat → List String
  | [], _ => []
  | para :: rest, currentLength =>
    if matchesKeywords para then
      if currentLength + para.length > MAX_EXCERPT_LENGTH then []
      else para :: selectGo rest (currentLength + para.length)
    else selectGo rest currentLength

/-- The relevance selector: paragraph split followed by the keyword/budget
selection loop, starting from a zero running total. -/
def relevantExcerpts (minutesText : String) : List String :=
  selectGo (splitParas minutesText) 0

/-- Prompt construction (api/summarize.ts lines 140-151); the claims do not
inspect the prompt text, only that it carries the joined excerpts. -/
def buildPrompt (excerptsText : String) : String :=
  "You are an expert assistant specialized in analyzing municipal government documents. Review the following excerpts from the Asheville City Council meeting minutes and extract a concise summary of discussions related to housing. If none are present respond exactly: No housing topics found.\n---\n"
    ++ excerptsText ++ "\n---\n"

/-- Outcome of `summarizeHousingTopics`: the returned string together with
whether the external summarization service was invoked. -/
structure SummarizeOutcome where
  result : String
  serviceCalled : Bool
deriving DecidableEq, Repr

/-- Model of `summarizeHousingTopics` (api/summarize.ts lines 107-165).  The
external Gemini call is abstracted as `service`; `Except.error` models a
thrown/rejected call, which the source catches and converts to an
error-marked string.  The guard `!minutesText || minutesText.trim().length
=== 0` is modelled by the trimmed length being zero (the empty string is the
only falsy string and also trims to length zero). -/
def summarizeHousingTopics (service : String → Except Unit String) (minutesText : String) :
    SummarizeOutcome :=
  if (jsTrim minutesText).length = 0 then
    { result := "No housing topics found.", serviceCalled := false }
  else
    let relevant := relevantExcerpts minutesText
    if relevant.length = 0 then
      { result := "No housing topics found.", serviceCalled := false }
    else
      let excerptsText := joinWith "\n---\n" relevant
      match service (buildPrompt excerptsText) with
      | Except.error _ => { result := "Error: Could not generate summary.", serviceCalled := true }
      | Except.ok txt =>
        let summary := jsTrim txt
        { result := if summary.length = 0 then "Could not generate summary from excerpts." else summary,
          serviceCalled := true }

/-!
Fetching and text extraction.  An HTTP response is modelled with its success
flag, declared content type, body text (as read by `resp.text()`), and the
result of parsing its bytes as a PDF: `none` when `getDocument` rejects, and
otherwise the per-page outcomes of `getPage`/`getTextContent`, where
`Except.error` models a rejected page-level promise.
-/

deriving instance DecidableEq for Except

/-- Model of an HTTP response, with the two interpretations of its body that
the source uses (HTML text, or a parsed page-based document). -/
structure WebResponse where
  ok : Bool
  contentType : String
  htmlBody : String
  doc : Option (List (Except Unit String))
deriving DecidableEq

/-- Page loop of `getPdfText` (api/summarize.ts lines 88-94): concatenate the
page texts in order, with a `"\n\n"` paragraph separator after each page; a
rejected page-level promise aborts the loop with that error (which the
enclosing `catch` then turns into the empty string). -/
def extractPages : List (Except Unit String) → Except Unit String
  | [] => Except.ok ""
  | Except.error e :: _ => Except.error e
  | Except.ok pageText :: rest =>
    match extractPages rest with
    | Except.ok s => Except.ok (pageText ++ "\n\n" ++ s)
    | Except.error e => Except.error e

/-- Model of `getPdfText` (api/summarize.ts lines 76-101).  The argument is
the outcome of `fetch`: `Except.error` is a network error.  Inside the `try`
block: a non-ok status throws, a document parse failure (`doc = none`) is a
rejected `getDocument` promise, and page outcomes feed `extractPages`.  The
`catch` converts every failure into the empty string. -/
def getPdfText (fetched : Except Unit WebResponse) : String :=
  match fetched with
  | Except.error _ => ""
  | Except.ok resp =>
    if resp.ok = false then ""
    else
      match resp.doc with
      | none => ""
      | some pages =>
        match extractPages pages with
        | Except.ok fullText => fullText
        | Except.error _ => ""

/-- Test for a page whose text extraction fails. -/
def hasPageError (pages : List (Except Unit String)) : Bool :=
  pages.any (fun p => match p with | Except.error _ => true | Except.ok _ => false)

/-- Modelled from the spec: the Text Extractor contract of section 4.4,
"page-level content extraction errors (skip that page's text, continue)" — an
erroring page contributes nothing while later pages are still extracted.
This definition follows the spec's words and is compared against the
source-derived `getPdfText`. -/
def specPageSkipText : List (Except Unit String) → String
  | [] => ""
  | Except.error _ :: rest => specPageSkipText rest
  | Except.ok pageText :: rest => pageText ++ "\n\n" ++ specPageSkipText rest

/-- Content-type acceptance test with both markers checked by the historical
fetch paths: a PDF MIME marker and the generic octet-stream marker. -/
def ctIndicatesBinary (ct : String) : Bool :=
  strIncludes (strToLower ct) "pdf" || strIncludes (strToLower ct) "octet-stream"

/-- Model of the per-link acceptance gate of the historical fetch loop
(src/unnamed/part_001 lines 184-192): skip (`none`) on a non-ok status or on
a content type that carries neither the PDF nor the octet-stream marker;
otherwise hand the response on for parsing. -/
def acceptResponse (resp : WebResponse) : Option WebResponse :=
  if resp.ok = false then none
  else if !(strIncludes (strToLower resp.contentType) "pdf")
          && !(strIncludes (strToLower resp.contentType) "octet-stream") then none
  else some resp

/-!
Aggregator (the request handler, api/summarize.ts lines 167-210).  The
acquisition step is an `Except` so that the `try`/`catch` of the handler is
visible: an error there is the single top-level error object.  Per-link text
extraction and the summarization service are abstracted as functions, since
`getPdfText` and `summarizeHousingTopics` are proved total separately.
-/

/-- Candidate link produced by the locator. -/
structure MeetingLink where
  date : String
  url : String
deriving DecidableEq, Repr

/-- Final output unit (types.ts). -/
structure MeetingSummary where
  date : String
  summary : String
  originalUrl : String
deriving DecidableEq, Repr

/-- Per-link pipeline of the handler (api/summarize.ts lines 178-195): skip
when no text was extracted (`!minutesText`, i.e. the empty string), skip when
the summary is error-marked, and otherwise build the `MeetingSummary`. -/
def processLink (pdf : String → String) (service : String → Except Unit String)
    (link : MeetingLink) : Option MeetingSummary :=
  let minutesText := pdf link.url
  if minutesText.length = 0 then none
  else
    let summaryText := (summarizeHousingTopics service minutesText).result
    if startsWithStr summaryText "Error:" then none
    else some { date := link.date, summary := summaryText, originalUrl := link.url }

/-- Date-descending order used by every `sort` call in the source:
`(a, b) => new Date(b.date).getTime() - new Date(a.date).getTime()` orders
`a` before `b` exactly when `a`'s date key is at least `b`'s. -/
def dateDescRel (a b : MeetingSummary) : Prop :=
  dateKey b.date ≤ dateKey a.date

instance : DecidableRel dateDescRel :=
  fun a b => Nat.decLe (dateKey b.date) (dateKey a.date)

instance : IsTotal MeetingSummary dateDescRel :=
  ⟨fun a b => Nat.le_total (dateKey b.date) (dateKey a.date)⟩

instance : IsTrans MeetingSummary dateDescRel :=
  ⟨fun _ _ _ h h2 => Nat.le_trans h2 h⟩

/-- Model of `validSummaries.sort(...)` (api/summarize.ts line 200): some
reordering sorted under the comparator; insertion sort keeps the model
kernel-executable. -/
def sortByDateDesc (l : List MeetingSummary) : List MeetingSummary :=
  l.insertionSort dateDescRel

/-- Model of the handler (api/summarize.ts lines 167-210).  `acquire` is the
outcome of `getMeetingLinks` inside the `try` block; a failure there reaches
the `catch` and becomes the single top-level error object (`Except.error`).
An empty link list short-circuits to the empty array. -/
def handler (acquire : Except String (List MeetingLink)) (pdf : String → String)
    (service : String → Except Unit String) : Except String (List MeetingSummary) :=
  match acquire with
  | Except.error e => Except.error e
  | Except.ok meetingLinks =>
    if meetingLinks.length = 0 then Except.ok []
    else Except.ok (sortByDateDesc (meetingLinks.filterMap (processLink pdf service)))

/-!
Document Locator.  The current version (api/summarize.ts lines 25-74) queries
the CivicClerk JSON API once per day over a 90-day window; the historical
version (src/unnamed/part_003 lines 195-257) additionally filters on the
meeting body name and caps the sorted list at 5.  The calendar formatting of
the scanned dates and the per-day responses are abstracted as parameters:
`dates i` is the formatted date string for day `i`, and `env i` is the day's
parsed response (`none` covers a non-ok status, a non-JSON content type, a
non-array body, and a network error — all of which the source skips).
-/

/-- Entry of a meeting record's `Links` array. -/
structure DocLink where
  FileTypeName : String
  Url : String
deriving DecidableEq, Repr

/-- Meeting record returned by the per-day API query. -/
structure Meeting where
  BodyName : String
  Links : List DocLink
deriving DecidableEq, Repr

/-- API origin (api/summarize.ts line 19). -/
def apiBaseUrl : String := "https://asheville.civicclerk.com"

/-- Number of scanned days (api/summarize.ts line 28). -/
def daysToScan : Nat := 90

/-- Date-descending order on candidate links (the same comparator as on
summaries). -/
def linkDescRel (a b : MeetingLink) : Prop :=
  dateKey b.date ≤ dateKey a.date

instance : DecidableRel linkDescRel :=
  fun a b => Nat.decLe (dateKey b.date) (dateKey a.date)

instance : IsTotal MeetingLink linkDescRel :=
  ⟨fun a b => Nat.le_total (dateKey b.date) (dateKey a.date)⟩

instance : IsTrans MeetingLink linkDescRel :=
  ⟨fun _ _ _ h h2 => Nat.le_trans h2 h⟩

/-- Model of `getMeetingLinks` in the current version (api/summarize.ts lines
25-74): for each scanned day, each meeting contributes one link when some
entry of its `Links` has a `FileTypeName` whose lower-case form contains
"minutes" and a truthy (non-empty) `Url`; the collected links are sorted by
date descending and — per the comment "No longer slicing to a limit" — no
count cap is applied. -/
def getMeetingLinks (dates : Nat → String) (env : Nat → Option (List Meeting)) :
    List MeetingLink :=
  let links := (List.range daysToScan).flatMap (fun i =>
    match env i with
    | none => []
    | some meetingsData => meetingsData.filterMap (fun meeting =>
        match meeting.Links.find? (fun l =>
            strIncludes (strToLower l.FileTypeName) "minutes" && !(l.Url.length = 0)) with
        | some minutesLink => some { date := dates i, url := apiBaseUrl ++ minutesLink.Url }
        | none => none))
  links.insertionSort linkDescRel

/-- Model of `getMeetingLinks` in the historical version (src/unnamed/part_003
lines 195-257): only meetings whose `BodyName` is exactly
"City Council Regular Meeting" and whose `Links` hold an entry with
`FileTypeName === 'Minutes'` and a truthy `Url` contribute; the sorted list
is capped with `slice(0, 5)`. -/
def getMeetingLinksCapped (dates : Nat → String) (env : Nat → Option (List Meeting)) :
    List MeetingLink :=
  let links := (List.range daysToScan).flatMap (fun i =>
    match env i with
    | none => []
    | some meetingsData => meetingsData.filterMap (fun meeting =>
        if meeting.BodyName = "City Council Regular Meeting" then
          match meeting.Links.find? (fun l =>
              l.FileTypeName = "Minutes" && !(l.Url.length = 0)) with
          | some minutesLink => some { date := dates i, url := apiBaseUrl ++ minutesLink.Url }
          | none => none
        else none))
  (links.insertionSort linkDescRel).take 5

/-!
Link Resolver for gated (Google Drive) share links, modelled from
`fetchDrivePdf` in src/unnamed/part_001 lines 242-265.  The file identifier
is extracted with the regexes `/\/d\/([A-Za-z0-9_-]+)\//` and
`/[?&]id=([A-Za-z0-9_-]+)/`, and the confirmation token of a large-file HTML
page with `/confirm=([0-9A-Za-z_]+)&/`; the scanners below implement the
leftmost greedy match of those patterns.  `fetchDrivePdf` additionally
returns the list of URLs it requested, so that the number of negotiation
requests is visible in the statements.
-/

/-- Character class `[A-Za-z0-9_-]` of the file-identifier regexes. -/
def isIdChar (c : Char) : Bool :=
  c.isAlpha || c.isDigit || c = '_' || c = '-'

/-- Character class `[0-9A-Za-z_]` of the confirmation-token regex. -/
def isTokChar (c : Char) : Bool :=
  c.isAlpha || c.isDigit || c = '_'

/-- Leftmost match of `/\/d\/([A-Za-z0-9_-]+)\//`: after a literal "/d/", a
non-empty run of identifier characters followed by a slash.  The scan moves
one character per step, so fuel equal to the input length suffices. -/
def matchDGo : Nat → List Char → Option (List Char)
  | 0, _ => none
  | fuel + 1, '/' :: 'd' :: '/' :: rest =>
    let run := rest.takeWhile isIdChar
    if !run.isEmpty && ((rest.dropWhile isIdChar).head? == some '/') then some run
    else matchDGo fuel ('d' :: '/' :: rest)
  | fuel + 1, _ :: rest => matchDGo fuel rest
  | _ + 1, [] => none

/-- Leftmost match of the path-segment file-identifier pattern. -/
def matchDPattern (l : List Char) : Option (List Char) :=
  matchDGo l.length l

/-- Leftmost match of `/[?&]id=([A-Za-z0-9_-]+)/`: a query marker, the
literal "id=", then a non-empty run of identifier characters. -/
def matchIdGo : Nat → List Char → Option (List Char)
  | 0, _ => none
  | fuel + 1, c :: 'i' :: 'd' :: '=' :: rest =>
    if c == '?' || c == '&' then
      let run := rest.takeWhile isIdChar
      if !run.isEmpty then some run else matchIdGo fuel ('i' :: 'd' :: '=' :: rest)
    else matchIdGo fuel ('i' :: 'd' :: '=' :: rest)
  | fuel + 1, _ :: rest => matchIdGo fuel rest
  | _ + 1, [] => none

/-- Leftmost match of the query-parameter file-identifier pattern. -/
def matchIdParam (l : List Char) : Option (List Char) :=
  matchIdGo l.length l

/-- File-identifier extraction of `fetchDrivePdf` (src/unnamed/part_001 lines
244-246): the path-segment pattern first, the query-parameter pattern as a
fallback. -/
def extractFileId (url : String) : Option String :=
  match matchDPattern url.toList with
  | some run => some (String.mk run)
  | none => (matchIdParam url.toList).map (fun run => String.mk run)

/-- Leftmost match of `/confirm=([0-9A-Za-z_]+)&/`: the literal "confirm=",
a non-empty token run, then an ampersand. -/
def matchConfirmGo : Nat → List Char → Option (List Char)
  | 0, _ => none
  | fuel + 1, 'c' :: 'o' :: 'n' :: 'f' :: 'i' :: 'r' :: 'm' :: '=' :: rest =>
    let run := rest.takeWhile isTokChar
    if !run.isEmpty && ((rest.dropWhile isTokChar).head? == some '&') then some run
    else matchConfirmGo fuel ('o' :: 'n' :: 'f' :: 'i' :: 'r' :: 'm' :: '=' :: rest)
  | fuel + 1, _ :: rest => matchConfirmGo fuel rest
  | _ + 1, [] => none

/-- Leftmost match of the confirmation-token pattern. -/
def matchConfirm (l : List Char) : Option (List Char) :=
  matchConfirmGo l.length l

/-- Confirmation-token extraction from an HTML body (src/unnamed/part_001
line 258). -/
def confirmTokenOf (body : String) : Option String :=
  (matchConfirm body.toList).map (fun run => String.mk run)

/-- Base of the direct-download endpoint (src/unnamed/part_001 line 251). -/
def driveBase : String := "https://drive.google.com/uc?export=download"

/-- Model of `fetchDrivePdf` (src/unnamed/part_001 lines 242-265).  `net`
maps a URL to its response.  A link with no recognizable file identifier is
fetched as-is.  Otherwise the direct-download endpoint is fetched once; if
that response is HTML and carries a confirmation token, exactly one follow-up
request with the token appended is issued, and whatever it returns — even
another HTML page — is the final result.  The second component records every
requested URL in order. -/
def fetchDrivePdf (net : String → WebResponse) (url : String) :
    WebResponse × List String :=
  match extractFileId url with
  | none => (net url, [url])
  | some fileId =>
    let firstUrl := driveBase ++ "&id=" ++ fileId
    let resp := net firstUrl
    if strIncludes (strToLower resp.contentType) "text/html" then
      match confirmTokenOf resp.htmlBody with
      | some token =>
        let confirmUrl := driveBase ++ "&confirm=" ++ token ++ "&id=" ++ fileId
        (net confirmUrl, [firstUrl, confirmUrl])
      | none => (resp, [firstUrl])
    else (resp, [firstUrl])

/-!
Concrete fixture for the gated-share negotiation: a share link whose direct
download responds with an HTML confirmation page carrying a token, and whose
follow-up responds with yet another HTML page.
-/

/-- Example gated share link. -/
def gatedUrlEx : String := "https://drive.google.com/file/d/AB_1/view"

/-- Example network: HTML confirmation page with token "tok7" at the direct
download URL, another HTML page at the follow-up URL, and a PDF elsewhere. -/
def gatedNetEx : String → WebResponse := fun u =>
  if u = "https://drive.google.com/uc?export=download&id=AB_1" then
    { ok := true, contentType := "text/html",
      htmlBody := "href=/uc?export=download&confirm=tok7&id=AB_1", doc := none }
  else if u = "https://drive.google.com/uc?export=download&confirm=tok7&id=AB_1" then
    { ok := true, contentType := "text/html",
      htmlBody := "still a confirmation page", doc := none }
  else
    { ok := true, contentType := "application/pdf", htmlBody := "", doc := some [] }

/-!
Concrete fixture for the aggregator: one link whose extracted text has a
housing paragraph and whose summarization returns exactly the sentinel.
-/

/-- Example candidate link. -/
def linkEx : MeetingLink := { date := "2025-01-01", url := "u1" }

/-- Extractor stub: every URL yields a housing paragraph and a filler one. -/
def pdfEx : String → String := fun _ => "housing\n\nstuff"

/-- Service stub returning exactly the sentinel phrase. -/
def sentinelServiceEx : String → Except Unit String :=
  fun _ => Except.ok "No housing topics found."

/-- The sentinel-carrying summary the handler produces for the above. -/
def sentinelSummaryEx : MeetingSummary :=
  { date := "2025-01-01", summary := "No housing topics found.", originalUrl := "u1" }

/-!
Concrete fixture for the locator: six meetings with minutes links on the most
recent scanned day, none on the others.
-/

/-- Date formatting stub: every scanned day formats to the same date. -/
def locatorDatesEx : Nat → String := fun _ => "2025-01-01"

/-- Per-day responses: six minutes-bearing meetings on day 0, nothing else. -/
def locatorEnvEx : Nat → Option (List Meeting) := fun i =>
  if i = 0 then
    some (List.replicate 6 { BodyName := "X", Links := [{ FileTypeName := "Minutes", Url := "/f.pdf" }] })
  else none

/-!
Lemmas about the selection loop, shared by several of the theorems below.
-/

lemma sumLen_cons (x : String) (l : List String) : sumLen (x :: l) = x.length + sumLen l := by
  simp [sumLen]

lemma selectGo_budget (paras : List String) :
    ∀ c, c + sumLen (selectGo paras c) ≤ MAX_EXCERPT_LENGTH ∨ selectGo paras c = [] := by
  induction paras with
  | nil => intro c; right; rfl
  | cons para rest ih =>
    intro c
    by_cases hm : matchesKeywords para = true
    · by_cases hb : c + para.length > MAX_EXCERPT_LENGTH
      · right; simp [selectGo, hm, hb]
      · left
        have h1 : c + para.length ≤ MAX_EXCERPT_LENGTH := Nat.le_of_not_lt hb
        simp only [selectGo, if_pos hm, if_neg hb, sumLen_cons]
        rcases ih (c + para.length) with h | h
        · omega
        · rw [h]; simp [sumLen]; omega
    · simp only [selectGo, if_neg hm]
      exact ih c

lemma selectGo_sublist (paras : List String) :
    ∀ c, (selectGo paras c).Sublist paras := by
  induction paras with
  | nil => intro c; simp [selectGo]
  | cons para rest ih =>
    intro c
    by_cases hm : matchesKeywords para = true
    · by_cases hb : c + para.length > MAX_EXCERPT_LENGTH
      · simp [selectGo, hm, hb]
      · simp only [selectGo, if_pos hm, if_neg hb]
        exact List.Sublist.cons₂ _ (ih _)
    · simp only [selectGo, if_neg hm]
      exact List.Sublist.cons _ (ih c)

lemma selectGo_matches (paras : List String) :
    ∀ c p, p ∈ selectGo paras c → matchesKeywords p = true := by
  induction paras with
  | nil => intro c p hp; simp [selectGo] at hp
  | cons para rest ih =>
    intro c p hp
    by_cases hm : matchesKeywords para = true
    · by_cases hb : c + para.length > MAX_EXCERPT_LENGTH
      · simp [selectGo, hm, hb] at hp
      · simp only [selectGo, if_pos hm, if_neg hb, List.mem_cons] at hp
        rcases hp with h | h
        · rw [h]; exact hm
        · exact ih _ p h
    · simp only [selectGo, if_neg hm] at hp
      exact ih c p hp

lemma selectGo_nil_of_no_match (paras : List String) :
    ∀ c, (∀ p ∈ paras, matchesKeywords p = false) → selectGo paras c = [] := by
  induction paras with
  | nil => intro c _; rfl
  | cons para rest ih =>
    intro c h
    have hp : matchesKeywords para = false := h para (List.mem_cons_self para rest)
    simp only [selectGo, hp, Bool.false_eq_true, if_false]
    exact ih c (fun p hmem => h p (List.mem_cons_of_mem para hmem))

/-- C2: the excerpt produced by the relevance selector never exceeds the
`MAX_EXCERPT_LENGTH = 35000` character budget, and a matching paragraph that
would push the running total over the budget is omitted entirely — the
selection loop returns immediately, including nothing from that point on. -/
theorem excerpt_budget_invariant :
    ∀ minutesText : String,
      sumLen (relevantExcerpts minutesText) ≤ MAX_EXCERPT_LENGTH
      ∧ ∀ (currentLength : Nat) (para : String) (rest : List String),
          matchesKeywords para = true →
          currentLength + para.length > MAX_EXCERPT_LENGTH →
          selectGo (para :: rest) currentLength = [] := by
  intro t
  constructor
  · rcases selectGo_budget (splitParas t) 0 with h | h
    · unfold relevantExcerpts; omega
    · unfold relevantExcerpts; rw [h]; simp [sumLen]
  · intro c para rest hm hb
    simp [selectGo, hm, hb]

/-- Witness for C2 at a concrete input. -/
theorem excerpt_budget_invariant_witness :
    sumLen (relevantExcerpts "housing") ≤ MAX_EXCERPT_LENGTH
    ∧ selectGo ["housing"] 35000 = [] :=
  ⟨(excerpt_budget_invariant "housing").1,
   (excerpt_budget_invariant "housing").2 35000 "housing" [] (by decide) (by decide)⟩

/-- C4: when no paragraph of the split text matches the keyword set, the
summarizer returns the sentinel and the external service is not called. -/
theorem no_match_skips_service :
    ∀ (service : String → Except Unit String) (minutesText : String),
      (∀ p ∈ splitParas minutesText, matchesKeywords p = false) →
      summarizeHousingTopics service minutesText
        = { result := "No housing topics found.", serviceCalled := false } := by
  intro service t h
  have hsel : relevantExcerpts t = [] := selectGo_nil_of_no_match (splitParas t) 0 h
  unfold summarizeHousingTopics
  by_cases he : (jsTrim t).length = 0
  · simp [he]
  · simp [he, hsel]

/-- Witness for C4 at a concrete input with no matching paragraph. -/
theorem no_match_skips_service_witness :
    summarizeHousingTopics (fun _ => Except.ok "summary text") "parking\n\nroads"
      = { result := "No housing topics found.", serviceCalled := false } :=
  no_match_skips_service (fun _ => Except.ok "summary text") "parking\n\nroads" (by decide)

/-- C9: the relevance selector is a pure function of its input: identical
input texts give identical excerpts; moreover the excerpt is an
order-preserving selection from the split paragraphs, each of which matches
the keyword set. -/
theorem selector_deterministic :
    ∀ t u : String, u = t →
      relevantExcerpts u = relevantExcerpts t
      ∧ (relevantExcerpts t).Sublist (splitParas t)
      ∧ ∀ p ∈ relevantExcerpts t, matchesKeywords p = true := by
  intro t u hu
  subst hu
  exact ⟨rfl, selectGo_sublist (splitParas u) 0,
    fun p hp => selectGo_matches (splitParas u) 0 p hp⟩

/-- Witness for C9 at a concrete input. -/
theorem selector_deterministic_witness :
    relevantExcerpts "housing" = relevantExcerpts "housing"
    ∧ (relevantExcerpts "housing").Sublist (splitParas "housing") :=
  ⟨(selector_deterministic "housing" "housing" rfl).1,
   (selector_deterministic "housing" "housing" rfl).2.1⟩

/-- C10: an empty or whitespace-only minutes text short-circuits to the
sentinel with no external service call (api/summarize.ts lines 108-110). -/
theorem empty_minutes_sentinel :
    ∀ (service : String → Except Unit String) (minutesText : String),
      (jsTrim minutesText).length = 0 →
      summarizeHousingTopics service minutesText
        = { result := "No housing topics found.", serviceCalled := false } := by
  intro service t h
  unfold summarizeHousingTopics
  simp [h]

/-- Witness for C10 at a concrete whitespace-only input. -/
theorem empty_minutes_sentinel_witness :
    summarizeHousingTopics (fun _ => Except.ok "summary text") " \n "
      = { result := "No housing topics found.", serviceCalled := false } :=
  empty_minutes_sentinel (fun _ => Except.ok "summary text") " \n " (by decide)

/-!
Lemmas about the summarizer result and the handler.
-/

lemma summarize_result_ne_empty (service : String → Except Unit String) (t : String) :
    (summarizeHousingTopics service t).result ≠ "" := by
  unfold summarizeHousingTopics
  by_cases he : (jsTrim t).length = 0
  · simp only [if_pos he]; decide
  · simp only [if_neg he]
    by_cases hr : (relevantExcerpts t).length = 0
    · simp only [if_pos hr]; decide
    · simp only [if_neg hr]
      cases hs : service (buildPrompt (joinWith "\n---\n" (relevantExcerpts t))) with
      | error e => simp only []; decide
      | ok txt =>
        simp only []
        by_cases hz : (jsTrim txt).length = 0
        · simp only [if_pos hz]; decide
        · simp only [if_neg hz]
          intro hcontra
          rw [hcontra] at hz
          simp at hz

lemma mem_sortByDateDesc {ms : MeetingSummary} {l : List MeetingSummary} :
    ms ∈ sortByDateDesc l ↔ ms ∈ l :=
  (List.perm_insertionSort dateDescRel l).mem_iff

/-- C8: the handler always yields either a date-descending-sorted list of
summaries or a single top-level error; an empty link list gives the empty
array (a valid non-error outcome); an acquisition failure gives the error
object; and per-link processing never turns a successful acquisition into an
error. -/
theorem handler_output_contract :
    (∀ (acquire : Except String (List MeetingLink)) (pdf : String → String)
       (service : String → Except Unit String),
       (∃ l, handler acquire pdf service = Except.ok l ∧ List.Sorted dateDescRel l)
       ∨ (∃ e, handler acquire pdf service = Except.error e))
    ∧ (∀ (pdf : String → String) (service : String → Except Unit String),
       handler (Except.ok []) pdf service = Except.ok [])
    ∧ (∀ (e : String) (pdf : String → String) (service : String → Except Unit String),
       handler (Except.error e) pdf service = Except.error e)
    ∧ (∀ (links : List MeetingLink) (pdf : String → String)
       (service : String → Except Unit String),
       ∃ l, handler (Except.ok links) pdf service = Except.ok l) := by
  refine ⟨?_, ?_, ?_, ?_⟩
  · intro acquire pdf service
    match acquire with
    | Except.error e => exact Or.inr ⟨e, rfl⟩
    | Except.ok links =>
      left
      by_cases h : links.length = 0
      · exact ⟨[], by simp [handler, h], List.sorted_nil⟩
      · exact ⟨sortByDateDesc (links.filterMap (processLink pdf service)),
          by simp [handler, h], List.sorted_insertionSort dateDescRel _⟩
  · intro pdf service; rfl
  · intro e pdf service; rfl
  · intro links pdf service
    by_cases h : links.length = 0
    · exact ⟨[], by simp [handler, h]⟩
    · exact ⟨sortByDateDesc (links.filterMap (processLink pdf service)), by simp [handler, h]⟩

/-- Counterexample to C1: a link whose summarization result is exactly the
sentinel "No housing topics found." is NOT omitted by the handler — the
returned list consists of that very document, its summary being the
sentinel.  (The filter at api/summarize.ts lines 186-188 drops only
error-marked summaries; the sentinel filter of the historical handler in
src/unnamed/part_003 lines 326-342 is gone, and the front end now filters
the sentinel instead.) -/
theorem aggregator_keeps_sentinel_cex :
    handler (Except.ok [linkEx]) pdfEx sentinelServiceEx = Except.ok [sentinelSummaryEx]
    ∧ sentinelSummaryEx.summary = "No housing topics found." :=
  ⟨by decide, rfl⟩

/-- C1 as amended: every document in the returned list has a summary that is
not error-marked and non-empty, and came from a link with non-empty
extracted text; documents whose summary is the sentinel are retained. -/
theorem aggregator_omission_amended :
    ∀ (acquire : Except String (List MeetingLink)) (pdf : String → String)
      (service : String → Except Unit String) (l : List MeetingSummary)
      (ms : MeetingSummary),
      handler acquire pdf service = Except.ok l → ms ∈ l →
      startsWithStr ms.summary "Error:" = false
      ∧ ms.summary ≠ ""
      ∧ (pdf ms.originalUrl).length ≠ 0 := by
  intro acquire pdf service l ms hh hm
  match acquire with
  | Except.error e => simp [handler] at hh
  | Except.ok links =>
    by_cases h0 : links.length = 0
    · simp [handler, h0] at hh
      subst hh
      simp at hm
    · simp only [handler, if_neg h0, Except.ok.injEq] at hh
      subst hh
      rw [mem_sortByDateDesc] at hm
      rcases List.mem_filterMap.mp hm with ⟨link, _, hproc⟩
      unfold processLink at hproc
      by_cases hempty : (pdf link.url).length = 0
      · simp [hempty] at hproc
      · simp only [if_neg hempty] at hproc
        by_cases herr :
            startsWithStr (summarizeHousingTopics service (pdf link.url)).result "Error:" = true
        · simp [herr] at hproc
        · rw [Bool.not_eq_true] at herr
          simp only [herr, Bool.false_eq_true, if_false, Option.some.injEq] at hproc
          subst hproc
          exact ⟨herr, summarize_result_ne_empty service (pdf link.url), hempty⟩

/-- Witness for the amended C1 at the concrete sentinel-returning input. -/
theorem aggregator_omission_amended_witness :
    startsWithStr sentinelSummaryEx.summary "Error:" = false
    ∧ sentinelSummaryEx.summary ≠ ""
    ∧ (pdfEx sentinelSummaryEx.originalUrl).length ≠ 0 :=
  aggregator_omission_amended (Except.ok [linkEx]) pdfEx sentinelServiceEx
    [sentinelSummaryEx] sentinelSummaryEx (by decide) (by decide)

/-- Counterexample to C6: the current locator applies no maximum-count cap —
with six minutes-bearing meetings inside the scan window it hands all six
downstream, exceeding the count cap of 5 that the historical locator
(src/unnamed/part_003 line 254, `links.slice(0, 5)`) enforced; the current
source states "No longer slicing to a limit, process all found meetings". -/
theorem locator_no_cap_cex :
    (getMeetingLinks locatorDatesEx locatorEnvEx).length = 6
    ∧ ¬ (getMeetingLinks locatorDatesEx locatorEnvEx).length ≤ 5 :=
  ⟨by decide, by decide⟩

/-- C6 as amended: the current locator hands downstream a list sorted by date
descending but applies no count cap; the count cap (5) belongs to the
historical locator, whose output is also sorted and never longer than 5. -/
theorem locator_sorted_amended :
    (∀ (dates : Nat → String) (env : Nat → Option (List Meeting)),
       List.Sorted linkDescRel (getMeetingLinks dates env))
    ∧ (∀ (dates : Nat → String) (env : Nat → Option (List Meeting)),
       List.Sorted linkDescRel (getMeetingLinksCapped dates env)
       ∧ (getMeetingLinksCapped dates env).length ≤ 5) := by
  constructor
  · intro dates env
    exact List.sorted_insertionSort linkDescRel _
  · intro dates env
    constructor
    · exact List.Pairwise.take (List.sorted_insertionSort linkDescRel _)
    · simp only [getMeetingLinksCapped, List.length_take]
      exact Nat.min_le_left _ _

/-!
Lemmas and theorems about text extraction and fetching.
-/

lemma extractPages_error_of_hasPageError (pages : List (Except Unit String)) :
    hasPageError pages = true → ∃ e, extractPages pages = Except.error e := by
  induction pages with
  | nil => intro h; simp [hasPageError] at h
  | cons p rest ih =>
    intro h
    match p with
    | Except.error e => exact ⟨e, rfl⟩
    | Except.ok t =>
      have hr : hasPageError rest = true := by
        simpa [hasPageError] using h
      rcases ih hr with ⟨e, he⟩
      exact ⟨e, by simp [extractPages, he]⟩

/-- Counterexample to C3: a page-level extraction error does not merely skip
that page — it empties the whole document.  On a two-page document whose
first page errors, the extractor returns the empty string, while the
spec-modelled per-page-skip extraction would still return the second page's
text. -/
theorem extractor_page_error_cex :
    getPdfText (Except.ok { ok := true, contentType := "application/pdf", htmlBody := "", doc := some [Except.error (), Except.ok "hello"] }) = ""
    ∧ specPageSkipText [Except.error (), Except.ok "hello"] = "hello\n\n"
    ∧ ("" : String) ≠ "hello\n\n" :=
  ⟨by decide, by decide, by decide⟩

/-- C3 as amended: the extractor never propagates a failure — a network
error, a non-ok status, a whole-document parse failure, and a zero-page
document all yield the empty string, and a page-level extraction error
empties the whole document's text (rather than skipping only that page). -/
theorem extractor_never_throws_amended :
    (∀ e, getPdfText (Except.error e) = "")
    ∧ (∀ resp : WebResponse, resp.ok = false → getPdfText (Except.ok resp) = "")
    ∧ (∀ ct body, getPdfText (Except.ok { ok := true, contentType := ct, htmlBody := body, doc := none }) = "")
    ∧ (∀ ct body, getPdfText (Except.ok { ok := true, contentType := ct, htmlBody := body, doc := some [] }) = "")
    ∧ (∀ ct body pages, hasPageError pages = true →
        getPdfText (Except.ok { ok := true, contentType := ct, htmlBody := body, doc := some pages }) = "") := by
  refine ⟨fun e => rfl, ?_, fun ct body => rfl, fun ct body => rfl, ?_⟩
  · intro resp h
    simp [getPdfText, h]
  · intro ct body pages h
    rcases extractPages_error_of_hasPageError pages h with ⟨e, he⟩
    simp [getPdfText, he]

/-- Witness for the amended C3 at concrete responses. -/
theorem extractor_never_throws_amended_witness :
    getPdfText (Except.ok { ok := false, contentType := "application/pdf", htmlBody := "", doc := none }) = ""
    ∧ getPdfText (Except.ok { ok := true, contentType := "application/pdf", htmlBody := "", doc := some [Except.error (), Except.ok "x"] }) = "" :=
  ⟨extractor_never_throws_amended.2.1 _ rfl,
   extractor_never_throws_amended.2.2.2.2 "application/pdf" "" [Except.error (), Except.ok "x"] (by decide)⟩

/-- Counterexample to C5: the current fetch path (`getPdfText`) performs no
content-type verification — a response whose declared content type carries
neither binary marker is still consumed and parsed, producing non-empty
output, whereas the claim requires the bytes to be used only for binary
content types. -/
theorem fetcher_no_ct_check_cex :
    getPdfText (Except.ok { ok := true, contentType := "text/html", htmlBody := "", doc := some [Except.ok "housing report"] }) = "housing report\n\n"
    ∧ ctIndicatesBinary "text/html" = false
    ∧ ("housing report\n\n" : String) ≠ "" :=
  ⟨by decide, by decide, by decide⟩

/-- C5 as amended: the content-type gate (PDF marker or octet-stream marker)
belongs to the historical fetch loop, which accepts a response only when the
status is ok and one of the two markers is present; the current `getPdfText`
verifies only HTTP success, and on a non-ok status or a network error it
skips the link by returning the empty string instead of throwing. -/
theorem fetcher_contract_amended :
    (∀ resp accepted : WebResponse, acceptResponse resp = some accepted →
       resp.ok = true ∧ ctIndicatesBinary resp.contentType = true)
    ∧ (∀ resp : WebResponse, resp.ok = false → getPdfText (Except.ok resp) = "")
    ∧ (∀ e, getPdfText (Except.error e) = "") := by
  refine ⟨?_, ?_, fun e => rfl⟩
  · intro resp accepted h
    unfold acceptResponse at h
    by_cases ho : resp.ok = false
    · simp [ho] at h
    · rw [Bool.not_eq_false] at ho
      refine ⟨ho, ?_⟩
      by_cases hct : ctIndicatesBinary resp.contentType = true
      · exact hct
      · exfalso
        unfold ctIndicatesBinary at hct
        rw [Bool.not_eq_true, Bool.or_eq_false_iff] at hct
        simp [ho, hct.1, hct.2] at h
  · intro resp h
    simp [getPdfText, h]

/-- Witness for the amended C5 at concrete responses. -/
theorem fetcher_contract_amended_witness :
    ({ ok := true, contentType := "application/pdf", htmlBody := "", doc := some [] } : WebResponse).ok = true
    ∧ ctIndicatesBinary ({ ok := true, contentType := "application/pdf", htmlBody := "", doc := some [] } : WebResponse).contentType = true
    ∧ getPdfText (Except.ok { ok := false, contentType := "text/html", htmlBody := "", doc := none }) = "" :=
  ⟨(fetcher_contract_amended.1 _ _ (show acceptResponse _ = some { ok := true, contentType := "application/pdf", htmlBody := "", doc := some [] } by decide)).1,
   (fetcher_contract_amended.1 _ _ (show acceptResponse _ = some { ok := true, contentType := "application/pdf", htmlBody := "", doc := some [] } by decide)).2,
   fetcher_contract_amended.2.1 _ rfl⟩

/-- C7: for a gated share link whose direct-download response is HTML with a
confirmation token, the resolver issues exactly one follow-up request with
the token embedded — the request trace is precisely the initial URL followed
by the confirm URL — and returns whatever the follow-up yields without any
further request; if that follow-up is itself an HTML confirmation page, the
per-link acceptance gate skips the link (no further negotiation). -/
theorem gated_single_followup :
    ∀ (net : String → WebResponse) (url fileId token : String),
      extractFileId url = some fileId →
      strIncludes (strToLower (net (driveBase ++ "&id=" ++ fileId)).contentType) "text/html" = true →
      confirmTokenOf (net (driveBase ++ "&id=" ++ fileId)).htmlBody = some token →
      fetchDrivePdf net url
        = (net (driveBase ++ "&confirm=" ++ token ++ "&id=" ++ fileId),
           [driveBase ++ "&id=" ++ fileId, driveBase ++ "&confirm=" ++ token ++ "&id=" ++ fileId])
      ∧ (strToLower (net (driveBase ++ "&confirm=" ++ token ++ "&id=" ++ fileId)).contentType = "text/html" →
         acceptResponse (net (driveBase ++ "&confirm=" ++ token ++ "&id=" ++ fileId)) = none) := by
  intro net url fileId token hid hct htok
  constructor
  · unfold fetchDrivePdf
    rw [hid]
    simp only [hct, if_true, htok]
  · intro h2
    have hp : strIncludes (strToLower (net (driveBase ++ "&confirm=" ++ token ++ "&id=" ++ fileId)).contentType) "pdf" = false := by
      rw [h2]; decide
    have ho : strIncludes (strToLower (net (driveBase ++ "&confirm=" ++ token ++ "&id=" ++ fileId)).contentType) "octet-stream" = false := by
      rw [h2]; decide
    unfold acceptResponse
    by_cases hok : (net (driveBase ++ "&confirm=" ++ token ++ "&id=" ++ fileId)).ok = false
    · simp [hok]
    · simp [hok, hp, ho]

/-- Witness for C7 on the concrete gated-share fixture: the negotiation
requests exactly the direct URL and one token-bearing follow-up, and the
follow-up HTML page is skipped by the acceptance gate. -/
theorem gated_single_followup_witness :
    fetchDrivePdf gatedNetEx gatedUrlEx
      = (gatedNetEx ("https://drive.google.com/uc?export=download" ++ "&confirm=" ++ "tok7" ++ "&id=" ++ "AB_1"),
         ["https://drive.google.com/uc?export=download" ++ "&id=" ++ "AB_1",
          "https://drive.google.com/uc?export=download" ++ "&confirm=" ++ "tok7" ++ "&id=" ++ "AB_1"])
    ∧ acceptResponse (gatedNetEx ("https://drive.google.com/uc?export=download" ++ "&confirm=" ++ "tok7" ++ "&id=" ++ "AB_1")) = none :=
  ⟨(gated_single_followup gatedNetEx gatedUrlEx "AB_1" "tok7" (by decide) (by decide) (by decide)).1,
   (gated_single_followup gatedNetEx gatedUrlEx "AB_1" "tok7" (by decide) (by decide) (by decide)).2 (by decide)⟩
